import Mathlib

/-!
Shallow embedding of `src/app.py` (Indian Stock PnL analyzer).

The embedding covers the parts of the program the claims are about:
symbol resolution (`get_stock_symbol`), the processing of the raw
financial statement (`process_financial_data`), growth-rate arithmetic
(`calculate_growth_rate`), the revenue / operating analysis
(`create_revenue_analysis`), the profitability / EPS analysis
(`create_profitability_analysis`), and the control flow of `main` that
strings them together.  Python floats are modelled as rationals, Python
strings as lists of characters, and the pandas data frame handed to the
analysis functions as an association list from row labels to value
series.  Definitions whose doc comment starts with "Modelled from the
spec" do not correspond to code under `src/` and instead follow the
specification's words; they exist so that spec-side formulas can be
compared with what the code computes.
-/

/-- Python strings, modelled as lists of characters. -/
abbrev Str := List Char

/-- Coerce a Lean string literal into the list-of-characters model. -/
def chars (x : String) : Str := x.toList

/-- The processed data frame `df` as consumed by the analysis functions:
one entry per column label (financial concept), each holding the series
of values across the reporting periods. -/
abbrev Frame := List (Str × List ℚ)

/-- `df.columns`: the column labels of the frame. -/
def columns (df : Frame) : List Str := df.map Prod.fst

/-- `df[k]`: the series stored under label `k` (empty when absent; the
analysis functions only ever use it after a successful key scan). -/
def col (df : Frame) (k : Str) : List ℚ := (List.lookup k df).getD []

/-- The alias-scan loop of the source
(`for key in keys: if key in df.columns: ...; break`):
the first key of `keys` that occurs among `cols`. -/
def findKey (keys : List Str) (cols : List Str) : Option Str :=
  keys.find? (fun k => decide (k ∈ cols))

/-- `calculate_growth_rate` from `src/app.py` lines 127-131.  Values are
rationals, so the `pd.isna` guards of the source are vacuously false and
only the zero-previous guard remains. -/
def calculate_growth_rate (current previous : ℚ) : ℚ :=
  if previous = 0 then 0 else ((current - previous) / |previous|) * 100

/-- `possible_revenue_keys` from `create_revenue_analysis`. -/
def possible_revenue_keys : List Str :=
  [chars "Total Revenue", chars "Revenue", chars "Net Sales", chars "Total Revenues"]

/-- `possible_operating_keys` from `create_revenue_analysis`. -/
def possible_operating_keys : List Str :=
  [chars "Operating Income", chars "Operating Revenue", chars "Gross Profit", chars "EBIT"]

/-- `possible_pbt_keys` from `create_profitability_analysis`. -/
def possible_pbt_keys : List Str :=
  [chars "Pretax Income", chars "Income Before Tax", chars "Earnings Before Tax", chars "PBT"]

/-- `possible_pat_keys` from `create_profitability_analysis`. -/
def possible_pat_keys : List Str :=
  [chars "Net Income", chars "Net Earnings", chars "PAT", chars "Profit After Tax"]

/-- The data computed by `create_revenue_analysis`: the (crore-scaled)
revenue and operating-profit series, the OPM% series, and whether an
operating alias resolved (the operating charts and the operating insight
text are emitted only when it did). -/
structure RevenueAnalysis where
  revenue : List ℚ
  operating : List ℚ
  opm : List ℚ
  operatingAvailable : Bool
deriving DecidableEq

/-- `create_revenue_analysis` from `src/app.py` lines 133-252, restricted
to the data it computes.  `none` models the early return after the
"Revenue data not found" warning; otherwise the series are produced, with
the operating and OPM series set to zero-filled placeholders when no
operating alias resolves. -/
def create_revenue_analysis (df : Frame) : Option RevenueAnalysis :=
  match findKey possible_revenue_keys (columns df) with
  | none => none
  | some rk =>
    let revenue_data := (col df rk).map (fun v => v / 10000000)
    match findKey possible_operating_keys (columns df) with
    | some ok =>
        some { revenue := revenue_data
               operating := (col df ok).map (fun v => v / 10000000)
               opm := List.zipWith (fun o r => o / r * 100) (col df ok) (col df rk)
               operatingAvailable := true }
    | none =>
        some { revenue := revenue_data
               operating := List.replicate revenue_data.length 0
               opm := List.replicate revenue_data.length 0
               operatingAvailable := false }

/-- The EPS growth loop of `create_profitability_analysis`
(`for i in range(1, len(eps_data))`): one growth entry per adjacent pair
of EPS values, in order. -/
def eps_growth_list : List ℚ → List ℚ
  | x :: y :: rest => calculate_growth_rate y x :: eps_growth_list (y :: rest)
  | _ => []

/-- The data computed by `create_profitability_analysis`: the
(crore-scaled) PBT and PAT series, the EPS series, the EPS growth-rate
list, and whether a PBT alias resolved. -/
structure ProfitAnalysis where
  pbt : List ℚ
  pat : List ℚ
  eps : List ℚ
  eps_growth : List ℚ
  pbtAvailable : Bool
deriving DecidableEq

/-- `create_profitability_analysis` from `src/app.py` lines 254-387,
restricted to the data it computes.  `none` models the early return after
the "Net Income/PAT data not found" warning; when no PBT alias resolves
the source uses the PAT series as a proxy and proceeds. -/
def create_profitability_analysis (df : Frame) : Option ProfitAnalysis :=
  match findKey possible_pat_keys (columns df) with
  | none => none
  | some pk =>
    let pat_data := (col df pk).map (fun v => v / 10000000)
    let eps_data := (col df pk).map (fun v => v / 1000000)
    match findKey possible_pbt_keys (columns df) with
    | some bk =>
        some { pbt := (col df bk).map (fun v => v / 10000000)
               pat := pat_data
               eps := eps_data
               eps_growth := eps_growth_list eps_data
               pbtAvailable := true }
    | none =>
        some { pbt := pat_data
               pat := pat_data
               eps := eps_data
               eps_growth := eps_growth_list eps_data
               pbtAvailable := false }

/-- `main` runs `create_revenue_analysis` and then
`create_profitability_analysis` on the same processed frame
(`src/app.py` lines 442-444); an early return of the first does not stop
the second. -/
def analysis_pipeline (df : Frame) : Option RevenueAnalysis × Option ProfitAnalysis :=
  (create_revenue_analysis df, create_profitability_analysis df)

/-- Modelled from the spec: "EPS per period = PAT / (SharesOutstanding /
1,000,000)".  No code under `src/` computes a shares-based EPS; this
definition follows the specification's formula so it can be compared with
the EPS the code derives. -/
def eps_spec (patValue shares : ℚ) : ℚ := patValue / (shares / 1000000)

/-- C5: the growth-rate computation returns ((current - previous) /
|previous|) * 100 whenever the previous value is nonzero, and exactly 0
whenever the previous value is 0, for any current value; being a total
function into ℚ it can neither raise nor produce an infinite or NaN
result. -/
theorem C5_growth_rate_total (current previous : ℚ) :
    (previous = 0 → calculate_growth_rate current previous = 0) ∧
    (previous ≠ 0 →
      calculate_growth_rate current previous = ((current - previous) / |previous|) * 100) := by
  constructor <;> intro h <;> simp [calculate_growth_rate, h]

/-- Witness for C5 at concrete inputs: a zero previous value (with a
nonzero current) gives exactly 0, and a negative previous value uses the
absolute-value denominator. -/
theorem C5_growth_rate_total_witness :
    calculate_growth_rate 7 0 = 0 ∧
    calculate_growth_rate 1 (-2) = ((1 - (-2)) / |(-2 : ℚ)|) * 100 :=
  ⟨(C5_growth_rate_total 7 0).1 rfl, (C5_growth_rate_total 1 (-2)).2 (by norm_num)⟩

/-- Helper for C8: anything `findKey` returns is a member of the column
list, and every alias listed before it misses the column list — the scan
is first-match in the fixed alias order. -/
theorem findKey_first_match (keys : List Str) :
    ∀ (cols : List Str) (k : Str), findKey keys cols = some k →
      k ∈ cols ∧ ∃ pre post, keys = pre ++ k :: post ∧ ∀ k2 ∈ pre, k2 ∉ cols := by
  induction keys with
  | nil => intro cols k h; simp [findKey] at h
  | cons a rest ih =>
    intro cols k h
    by_cases ha : a ∈ cols
    · rw [findKey, List.find?_cons_of_pos _ (by simpa using ha)] at h
      cases h
      exact ⟨ha, [], rest, rfl, by simp⟩
    · rw [findKey, List.find?_cons_of_neg _ (by simpa using ha)] at h
      obtain ⟨hk, pre, post, hkeys, hpre⟩ := ih cols k h
      refine ⟨hk, a :: pre, post, by rw [hkeys]; rfl, ?_⟩
      intro k2 hk2
      rcases List.mem_cons.mp hk2 with rfl | hk2
      · exact ha
      · exact hpre k2 hk2

/-- C8: concept resolution scans the alias list in its fixed order and
selects the first alias present as a row label; in particular a statement
containing both a "Total Revenue" and a "Revenue" row resolves the
revenue concept to "Total Revenue". -/
theorem C8_alias_priority :
    (∀ cols : List Str, chars "Total Revenue" ∈ cols → chars "Revenue" ∈ cols →
        findKey possible_revenue_keys cols = some (chars "Total Revenue")) ∧
    (∀ (keys cols : List Str) (k : Str), findKey keys cols = some k →
        k ∈ cols ∧ ∃ pre post, keys = pre ++ k :: post ∧ ∀ k2 ∈ pre, k2 ∉ cols) := by
  constructor
  · intro cols h1 _
    rw [possible_revenue_keys, findKey, List.find?_cons_of_pos _ (by simpa using h1)]
  · exact fun keys => findKey_first_match keys

/-- Witness for C8: on a concrete column list holding a "Revenue" row
before a "Total Revenue" row, resolution still selects "Total Revenue". -/
theorem C8_alias_priority_witness :
    findKey possible_revenue_keys [chars "Revenue", chars "Total Revenue"]
      = some (chars "Total Revenue") :=
  C8_alias_priority.1 [chars "Revenue", chars "Total Revenue"] (by decide) (by decide)

/-- Concrete frame for C1: one period with a raw PAT of 1,000,000. -/
def C1_frame : Frame := [(chars "Net Income", [1000000])]

/-- C1 counterexample: the code derives EPS as PAT divided by the fixed
constant 1,000,000 (here: EPS 1), which differs from the spec formula
PAT / (SharesOutstanding / 1,000,000) for a period whose resolved share
count is 2,000,000 (spec EPS 500,000); the shares figure is never used as
the denominator. -/
theorem C1_eps_fixed_divisor_cex :
    (create_profitability_analysis C1_frame).map (fun r => r.eps) = some [1] ∧
    eps_spec 1000000 2000000 = 500000 ∧
    (1 : ℚ) ≠ 500000 := by
  have hpat : findKey possible_pat_keys (columns C1_frame) = some (chars "Net Income") := by
    decide
  have hpbt : findKey possible_pbt_keys (columns C1_frame) = none := by decide
  have hcol : col C1_frame (chars "Net Income") = [1000000] := rfl
  refine ⟨?_, by norm_num [eps_spec], by norm_num⟩
  simp only [create_profitability_analysis, hpat, hpbt, hcol, List.map_cons, List.map_nil,
    Option.map_some']
  norm_num

/-- C1 amended: whenever a PAT alias resolves, the profitability analysis
produces a table whose EPS series is the raw PAT series divided by the
fixed constant 1,000,000; shares outstanding are not consulted (they are
not even an input of the computation). -/
theorem C1_eps_fixed_divisor (df : Frame) (pk : Str)
    (h : findKey possible_pat_keys (columns df) = some pk) :
    ∃ r, create_profitability_analysis df = some r ∧
      r.eps = (col df pk).map (fun v => v / 1000000) := by
  cases hb : findKey possible_pbt_keys (columns df) <;>
    · simp only [create_profitability_analysis, h, hb]
      exact ⟨_, rfl, rfl⟩

/-- Witness for C1 (amended) at the concrete one-period frame. -/
theorem C1_eps_fixed_divisor_witness :
    ∃ r, create_profitability_analysis C1_frame = some r ∧
      r.eps = (col C1_frame (chars "Net Income")).map (fun v => v / 1000000) :=
  C1_eps_fixed_divisor C1_frame (chars "Net Income") (by decide)

/-- Concrete frame for C2: a revenue row only, no operating alias. -/
def C2_frame : Frame := [(chars "Total Revenue", [100])]

/-- C2 counterexample: on a statement with no operating-profit alias the
operating-profit and OPM% series entries are the numeric value 0, not a
"not available" marker. -/
theorem C2_opm_zero_fill_cex :
    findKey possible_operating_keys (columns C2_frame) = none ∧
    (create_revenue_analysis C2_frame).map (fun r => r.opm) = some [0] ∧
    (create_revenue_analysis C2_frame).map (fun r => r.operating) = some [0] := by
  refine ⟨by decide, ?_, ?_⟩ <;> decide

/-- C2 amended: when a revenue alias resolves but no operating alias
does, the analysis still runs and fills the operating-profit and OPM%
series with zeros (one per period); the flag recording that operating
data resolved is false, so the operating charts are omitted and the
insights text reports that operating profit data is not available. -/
theorem C2_opm_zero_fill (df : Frame) (rk : Str)
    (h1 : findKey possible_revenue_keys (columns df) = some rk)
    (h2 : findKey possible_operating_keys (columns df) = none) :
    ∃ r, create_revenue_analysis df = some r ∧
      r.operating = List.replicate r.revenue.length 0 ∧
      r.opm = List.replicate r.revenue.length 0 ∧
      r.operatingAvailable = false := by
  simp only [create_revenue_analysis, h1, h2]
  exact ⟨_, rfl, rfl, rfl, rfl⟩

/-- Witness for C2 (amended) at the concrete revenue-only frame. -/
theorem C2_opm_zero_fill_witness :
    ∃ r, create_revenue_analysis C2_frame = some r ∧
      r.operating = List.replicate r.revenue.length 0 ∧
      r.opm = List.replicate r.revenue.length 0 ∧
      r.operatingAvailable = false :=
  C2_opm_zero_fill C2_frame (chars "Total Revenue") (by decide) (by decide)

/-- Concrete frame for C3: a PAT row only — no revenue alias and no PBT
alias resolve. -/
def C3_frame : Frame := [(chars "Net Income", [10])]

/-- C3 counterexample: with Revenue and PBT both unresolved the pipeline
does not fail with a concept-specific error producing no output: the
revenue analysis silently returns, while the profitability analysis still
produces a populated table in which the PBT series is the PAT series
substituted as a proxy — a partially populated result. -/
theorem C3_missing_concept_cex :
    findKey possible_revenue_keys (columns C3_frame) = none ∧
    findKey possible_pbt_keys (columns C3_frame) = none ∧
    (analysis_pipeline C3_frame).1 = none ∧
    (analysis_pipeline C3_frame).2.map (fun r => r.pbt)
      = (analysis_pipeline C3_frame).2.map (fun r => r.pat) ∧
    (analysis_pipeline C3_frame).2.map (fun r => r.pbtAvailable) = some false ∧
    (analysis_pipeline C3_frame).2.map (fun r => r.pat.length) = some 1 :=
  ⟨by decide, by decide, by decide, rfl, by decide, by decide⟩

/-- C3 amended: an unresolved Revenue alias makes only the revenue
analysis return early (with a warning naming revenue), and an unresolved
PAT alias makes only the profitability analysis return early; the other
analysis still runs, so partial results are possible.  An unresolved PBT
does not fail at all: the PAT series is substituted as a proxy and a full
table is produced. -/
theorem C3_missing_concept_behavior :
    (∀ df : Frame, findKey possible_revenue_keys (columns df) = none →
        (analysis_pipeline df).1 = none) ∧
    (∀ df : Frame, findKey possible_pat_keys (columns df) = none →
        (analysis_pipeline df).2 = none) ∧
    (∀ (df : Frame) (pk : Str), findKey possible_pbt_keys (columns df) = none →
        findKey possible_pat_keys (columns df) = some pk →
        ∃ r, (analysis_pipeline df).2 = some r ∧ r.pbt = r.pat ∧
          r.pbtAvailable = false) := by
  refine ⟨?_, ?_, ?_⟩
  · intro df h
    simp [analysis_pipeline, create_revenue_analysis, h]
  · intro df h
    simp [analysis_pipeline, create_profitability_analysis, h]
  · intro df pk hpbt hpat
    simp only [analysis_pipeline, create_profitability_analysis, hpat, hpbt]
    exact ⟨_, rfl, rfl, rfl⟩

/-- Witness for C3 (amended) at the concrete PAT-only frame. -/
theorem C3_missing_concept_behavior_witness :
    (analysis_pipeline C3_frame).1 = none ∧
    ∃ r, (analysis_pipeline C3_frame).2 = some r ∧ r.pbt = r.pat ∧
      r.pbtAvailable = false :=
  ⟨C3_missing_concept_behavior.1 C3_frame (by decide),
   C3_missing_concept_behavior.2.2 C3_frame (chars "Net Income") (by decide) (by decide)⟩

/-- Concrete frame for C6: four periods of raw PAT, giving the EPS series
[1, 2, 3, 4]. -/
def C6_frame : Frame := [(chars "Net Income", [1000000, 2000000, 3000000, 4000000])]

/-- C6 counterexample: on a four-period input the EPS-growth series has
only three entries (it is charted against `years[1:]`), so it is not
aligned 1:1 with the input periods, and its first entry is the growth
from period 0 to period 1 (here 100), not an index-0 entry equal to 0. -/
theorem C6_growth_alignment_cex :
    (create_profitability_analysis C6_frame).map (fun r => r.eps.length) = some 4 ∧
    (create_profitability_analysis C6_frame).map (fun r => r.eps_growth.length) = some 3 ∧
    (create_profitability_analysis C6_frame).map (fun r => r.eps_growth.head?)
      = some (some 100) ∧
    (3 : ℕ) ≠ 4 ∧ some (100 : ℚ) ≠ some 0 := by
  have hpat : findKey possible_pat_keys (columns C6_frame) = some (chars "Net Income") := by
    decide
  have hpbt : findKey possible_pbt_keys (columns C6_frame) = none := by decide
  have hcol : col C6_frame (chars "Net Income") = [1000000, 2000000, 3000000, 4000000] := rfl
  refine ⟨by decide, by decide, ?_, by norm_num, by norm_num⟩
  simp only [create_profitability_analysis, hpat, hpbt, hcol, List.map_cons, List.map_nil,
    eps_growth_list, Option.map_some', List.head?]
  rw [calculate_growth_rate, if_neg (by norm_num)]
  norm_num

/-- Helper for C6: the growth loop produces exactly one entry per
adjacent pair of the EPS series — it is the pairwise zip of the series
with its own tail, of length one less than the series. -/
theorem eps_growth_list_eq (xs : List ℚ) :
    eps_growth_list xs
        = List.zipWith (fun prev cur => calculate_growth_rate cur prev) xs xs.tail ∧
      (eps_growth_list xs).length = xs.length - 1 := by
  induction xs with
  | nil => simp [eps_growth_list]
  | cons x t ih =>
    cases t with
    | nil => simp [eps_growth_list]
    | cons y rest =>
      obtain ⟨ih1, ih2⟩ := ih
      constructor
      · simp only [eps_growth_list, List.tail_cons, List.zipWith_cons_cons]
        rw [ih1]
        rfl
      · simp only [eps_growth_list, List.length_cons] at ih2 ⊢
        omega

/-- C6 amended: whenever a PAT alias resolves, the produced EPS-growth
series is the pairwise growth of adjacent EPS values — length one less
than the EPS series (the first period has no entry at all rather than a
zero entry). -/
theorem C6_growth_alignment (df : Frame) (pk : Str)
    (h : findKey possible_pat_keys (columns df) = some pk) :
    ∃ r, create_profitability_analysis df = some r ∧
      r.eps_growth
        = List.zipWith (fun prev cur => calculate_growth_rate cur prev) r.eps r.eps.tail ∧
      r.eps_growth.length = r.eps.length - 1 := by
  cases hb : findKey possible_pbt_keys (columns df) <;>
    · simp only [create_profitability_analysis, h, hb]
      exact ⟨_, rfl, (eps_growth_list_eq _).1, (eps_growth_list_eq _).2⟩

/-- Witness for C6 (amended) at the concrete four-period frame. -/
theorem C6_growth_alignment_witness :
    ∃ r, create_profitability_analysis C6_frame = some r ∧
      r.eps_growth
        = List.zipWith (fun prev cur => calculate_growth_rate cur prev) r.eps r.eps.tail ∧
      r.eps_growth.length = r.eps.length - 1 :=
  C6_growth_alignment C6_frame (chars "Net Income") (by decide)

/-- One transposed statement row: the period end date (as an integer
key, standing for the parsed datetime index) together with the row of
concept values reported for that period. -/
abbrev PeriodRow := ℤ × List ℚ

/-- The ordering used by `df.sort_index(ascending=True)`: compare period
rows by their end date. -/
def byDate (a b : PeriodRow) : Prop := a.1 ≤ b.1

instance : DecidableRel byDate := fun a b => inferInstanceAs (Decidable (a.1 ≤ b.1))

instance : IsTotal PeriodRow byDate := ⟨fun a b => le_total a.1 b.1⟩

instance : IsTrans PeriodRow byDate := ⟨fun _ _ _ h1 h2 => le_trans h1 h2⟩

/-- `process_financial_data` from `src/app.py` lines 112-125, on the
transposed statement (one entry per reporting period): `None`/empty input
gives `none`; otherwise the periods are sorted ascending by end date and
the trailing 4 are kept (`df.tail(4)`). -/
def process_financial_data (financials : List PeriodRow) : Option (List PeriodRow) :=
  if financials = [] then none
  else
    let sorted := List.insertionSort byDate financials
    some (sorted.drop (sorted.length - 4))

/-- C7: for every raw statement with at least 4 periods — whatever order
its columns arrive in — processing sorts by period end date and returns
exactly the 4 most recent periods, oldest first: the output has length 4,
is sorted ascending by date, and together with the dropped periods is a
permutation of the input in which every dropped period's date is at most
every kept period's date. -/
theorem C7_period_selection (stmt : List PeriodRow) (h4 : 4 ≤ stmt.length) :
    ∃ out dropped,
      process_financial_data stmt = some out ∧
      out.length = 4 ∧
      List.Sorted byDate out ∧
      (dropped ++ out).Perm stmt ∧
      ∀ a ∈ dropped, ∀ b ∈ out, byDate a b := by
  have hne : stmt ≠ [] := by
    intro he
    rw [he] at h4
    simp at h4
  have hperm : (List.insertionSort byDate stmt).Perm stmt :=
    List.perm_insertionSort byDate stmt
  have hlen : (List.insertionSort byDate stmt).length = stmt.length := hperm.length_eq
  have hsorted : List.Sorted byDate (List.insertionSort byDate stmt) :=
    List.sorted_insertionSort byDate stmt
  refine ⟨(List.insertionSort byDate stmt).drop ((List.insertionSort byDate stmt).length - 4),
    (List.insertionSort byDate stmt).take ((List.insertionSort byDate stmt).length - 4),
    ?_, ?_, ?_, ?_, ?_⟩
  · simp only [process_financial_data, if_neg hne]
  · rw [List.length_drop]
    omega
  · exact List.Pairwise.sublist (List.drop_sublist _ _) hsorted
  · rw [List.take_append_drop]
    exact hperm
  · have hp : List.Pairwise byDate
        ((List.insertionSort byDate stmt).take ((List.insertionSort byDate stmt).length - 4) ++
         (List.insertionSort byDate stmt).drop ((List.insertionSort byDate stmt).length - 4)) := by
      rw [List.take_append_drop]
      exact hsorted
    exact (List.pairwise_append.mp hp).2.2

/-- Witness for C7: a concrete five-period statement arriving in a
shuffled order is sorted and cut down to its 4 most recent periods,
oldest first. -/
theorem C7_period_selection_witness :
    process_financial_data [(3, [30]), (1, [10]), (5, [50]), (2, [20]), (4, [40])]
      = some [(2, [20]), (3, [30]), (4, [40]), (5, [50])] ∧
    ∃ out dropped,
      process_financial_data [(3, [30]), (1, [10]), (5, [50]), (2, [20]), (4, [40])]
        = some out ∧
      out.length = 4 ∧
      List.Sorted byDate out ∧
      (dropped ++ out).Perm [(3, [30]), (1, [10]), (5, [50]), (2, [20]), (4, [40])] ∧
      ∀ a ∈ dropped, ∀ b ∈ out, byDate a b :=
  ⟨by decide, C7_period_selection [(3, [30]), (1, [10]), (5, [50]), (2, [20]), (4, [40])]
    (by decide)⟩

/-- `str.upper()` on one character (ASCII case mapping, which is what the
symbols and company names in the source exercise). -/
def upperChar (c : Char) : Char :=
  if 97 ≤ c.toNat ∧ c.toNat ≤ 122 then Char.ofNat (c.toNat - 32) else c

/-- `str.lower()` on one character (ASCII case mapping). -/
def lowerChar (c : Char) : Char :=
  if 65 ≤ c.toNat ∧ c.toNat ≤ 90 then Char.ofNat (c.toNat + 32) else c

/-- `str.upper()`. -/
def pyUpper (x : Str) : Str := x.map upperChar

/-- `str.lower()`. -/
def pyLower (x : Str) : Str := x.map lowerChar

/-- The whitespace characters stripped by `str.strip()`. -/
def pySpace (c : Char) : Bool :=
  c == ' ' || c == '\t' || c == '\n' || c == '\r' || c == '\x0b' || c == '\x0c'

/-- `str.strip()`: drop whitespace from both ends. -/
def pyStrip (x : Str) : Str :=
  ((x.dropWhile pySpace).reverse.dropWhile pySpace).reverse

/-- The `indian_stocks` company-name-to-symbol table from
`get_stock_symbol` (`src/app.py` lines 59-80). -/
def indian_stocks : List (Str × Str) :=
  [ (chars "reliance", chars "RELIANCE.NS")
  , (chars "tcs", chars "TCS.NS")
  , (chars "hdfc bank", chars "HDFCBANK.NS")
  , (chars "infosys", chars "INFY.NS")
  , (chars "icici bank", chars "ICICIBANK.NS")
  , (chars "hdfc", chars "HDFC.NS")
  , (chars "kotak mahindra", chars "KOTAKBANK.NS")
  , (chars "bharti airtel", chars "BHARTIARTL.NS")
  , (chars "itc", chars "ITC.NS")
  , (chars "sbi", chars "SBIN.NS")
  , (chars "l&t", chars "LT.NS")
  , (chars "axis bank", chars "AXISBANK.NS")
  , (chars "maruti suzuki", chars "MARUTI.NS")
  , (chars "bajaj finance", chars "BAJFINANCE.NS")
  , (chars "wipro", chars "WIPRO.NS")
  , (chars "asian paints", chars "ASIANPAINT.NS")
  , (chars "nestle", chars "NESTLEIND.NS")
  , (chars "ultratech cement", chars "ULTRACEMCO.NS")
  , (chars "titan", chars "TITAN.NS")
  , (chars "sun pharma", chars "SUNPHARMA.NS") ]

/-- `get_stock_symbol` from `src/app.py` lines 56-93: look the lowered,
stripped input up in the company table; otherwise keep an input already
carrying a `.NS`/`.BO` suffix (uppercased); otherwise uppercase and
append `.NS`.  The function always returns a plain symbol string — the
source has no failure path. -/
def get_stock_symbol (stock_input : Str) : Str :=
  match List.lookup (pyStrip (pyLower stock_input)) indian_stocks with
  | some v => v
  | none =>
    if chars ".NS" <:+ pyUpper stock_input ∨ chars ".BO" <:+ pyUpper stock_input then
      pyUpper stock_input
    else
      pyUpper stock_input ++ chars ".NS"

/-- The `main` control path for a submitted input (`src/app.py` lines
416-422): a nonempty input is resolved by `get_stock_symbol` and handed
directly to `fetch_financial_data`; nothing sits between resolution and
the fetch stage. -/
def main_fetch_symbol (stock_input : Str) : Option Str :=
  if stock_input = [] then none else some (get_stock_symbol stock_input)

/-- Modelled from the spec: one character of the accepted symbol
alphabet, "A-Z, 0-9, '.', '-'". -/
def allowedChar (c : Char) : Bool :=
  (65 ≤ c.toNat && c.toNat ≤ 90) || (48 ≤ c.toNat && c.toNat ≤ 57) || c == '.' || c == '-'

/-- Modelled from the spec: the accepted lexical pattern "1-20 characters
drawn from A-Z, 0-9, '.', '-' followed by the required market suffix".
`src/app.py` contains no such validation; the definition follows the
specification's words so the validation claim can be stated against the
code. -/
def validFormat (x : Str) : Bool :=
  decide (chars ".NS" <:+ x ∨ chars ".BO" <:+ x) &&
    (let base := x.take (x.length - 3)
     decide (1 ≤ base.length) && decide (base.length ≤ 20) && base.all allowedChar)

/-- C9 counterexample: the input "A B!" resolves to the symbol "A B!.NS",
which violates the accepted lexical pattern (space and '!' are outside
the alphabet), yet resolution produces a plain symbol rather than an
InvalidSymbolFormat failure and `main` reaches the fetch stage with it. -/
theorem C9_no_validation_cex :
    main_fetch_symbol (chars "A B!") = some (chars "A B!.NS") ∧
    validFormat (chars "A B!.NS") = false := by
  constructor <;> decide

/-- C9 amended: symbol resolution performs no lexical validation at all —
for every nonempty input, `main` reaches the fetch stage with whatever
symbol `get_stock_symbol` produced (malformed symbols surface only as
fetch-stage errors, never as a typed InvalidSymbolFormat result). -/
theorem C9_no_validation (stock_input : Str) (h : stock_input ≠ []) :
    main_fetch_symbol stock_input = some (get_stock_symbol stock_input) := by
  simp [main_fetch_symbol, h]

/-- Witness for C9 (amended) at a concrete input. -/
theorem C9_no_validation_witness :
    main_fetch_symbol (chars "TCS") = some (get_stock_symbol (chars "TCS")) :=
  C9_no_validation (chars "TCS") (by decide)

/-- Uppercasing one character is idempotent. -/
theorem upperChar_upperChar (c : Char) : upperChar (upperChar c) = upperChar c := by
  unfold upperChar
  by_cases h : 97 ≤ c.toNat ∧ c.toNat ≤ 122
  · rw [if_pos h]
    obtain ⟨h1, h2⟩ := h
    generalize c.toNat = n at h1 h2
    interval_cases n <;> decide
  · rw [if_neg h, if_neg h]

/-- Uppercasing a string is idempotent. -/
theorem pyUpper_pyUpper (x : Str) : pyUpper (pyUpper x) = pyUpper x := by
  induction x with
  | nil => rfl
  | cons c t ih =>
    simp only [pyUpper, List.map_cons] at ih ⊢
    rw [upperChar_upperChar, ih]

/-- A suffix stays a suffix under `map`. -/
theorem suffix_map (f : Char → Char) (u x : Str) (h : u <:+ x) :
    u.map f <:+ x.map f := by
  obtain ⟨a, rfl⟩ := h
  exact ⟨a.map f, (List.map_append f a u).symm⟩

/-- `dropWhile` never eats a trailing block that starts with a character
the predicate rejects. -/
theorem suffix_dropWhile (p : Char → Bool) (a u : Str) (hu : u ≠ [])
    (hnp : ∀ c ∈ u, p c = false) : u <:+ (a ++ u).dropWhile p := by
  induction a with
  | nil =>
    cases u with
    | nil => exact absurd rfl hu
    | cons c t =>
      rw [List.nil_append, List.dropWhile_cons, hnp c (by simp)]
      simp
  | cons b a2 ih =>
    rw [List.cons_append, List.dropWhile_cons]
    cases hb : p b with
    | true => simpa using ih
    | false => exact ⟨b :: a2, rfl⟩

/-- `str.strip()` preserves a nonempty suffix that contains no
whitespace. -/
theorem suffix_pyStrip (u x : Str) (hu : u ≠ []) (hnp : ∀ c ∈ u, pySpace c = false)
    (h : u <:+ x) : u <:+ pyStrip x := by
  have h1 : u <:+ x.dropWhile pySpace := by
    obtain ⟨a, rfl⟩ := h
    exact suffix_dropWhile pySpace a u hu hnp
  obtain ⟨b, hb⟩ := h1
  cases hr : u.reverse with
  | nil => exact absurd (List.reverse_eq_nil_iff.mp hr) hu
  | cons c t =>
    have hc : c ∈ u := by
      have : c ∈ u.reverse := by rw [hr]; simp
      simpa using this
    have key : pyStrip x = b ++ u := by
      rw [pyStrip, ← hb, List.reverse_append, hr, List.cons_append, List.dropWhile_cons,
        hnp c hc, if_neg (by simp), ← List.cons_append, ← hr, ← List.reverse_append,
        List.reverse_reverse]
    rw [key]
    exact ⟨b, rfl⟩

/-- `List.lookup` misses when no key of the table equals the probe. -/
theorem lookup_eq_none_of_ne {β : Type} (l : Str) (d : List (Str × β))
    (h : ∀ p ∈ d, p.1 ≠ l) : List.lookup l d = none := by
  induction d with
  | nil => rfl
  | cons p d2 ih =>
    obtain ⟨k, v⟩ := p
    have hk : (l == k) = false := beq_eq_false_iff_ne.mpr (Ne.symm (h (k, v) (by simp)))
    simp only [List.lookup, hk]
    exact ih fun q hq => h q (by simp [hq])

/-- A successful `List.lookup` returns a pair of the table. -/
theorem mem_of_lookup_eq_some {β : Type} {l : Str} {d : List (Str × β)} {v : β}
    (h : List.lookup l d = some v) : (l, v) ∈ d := by
  induction d with
  | nil => simp [List.lookup] at h
  | cons p d2 ih =>
    obtain ⟨k, w⟩ := p
    by_cases hk : (l == k) = true
    · simp only [List.lookup, hk] at h
      cases h
      have hkl : l = k := eq_of_beq hk
      subst hkl
      exact List.mem_cons_self _ _
    · have hk2 : (l == k) = false := by simpa using hk
      simp only [List.lookup, hk2] at h
      exact List.mem_cons_of_mem _ (ih h)

/-- No key of the company table ends in ".ns" or ".bo". -/
theorem indian_stocks_keys_no_suffix :
    ∀ p ∈ indian_stocks, ¬(chars ".ns" <:+ p.1) ∧ ¬(chars ".bo" <:+ p.1) := by decide

/-- Every value of the company table is uppercase and ends in ".NS". -/
theorem indian_stocks_values_upper :
    ∀ p ∈ indian_stocks, pyUpper p.2 = p.2 ∧ chars ".NS" <:+ p.2 := by decide

/-- A probe ending in ".ns" or ".bo" misses the company table. -/
theorem lookup_none_of_suffix (l : Str)
    (h : chars ".ns" <:+ l ∨ chars ".bo" <:+ l) :
    List.lookup l indian_stocks = none := by
  apply lookup_eq_none_of_ne
  intro p hp hpl
  have hobs := indian_stocks_keys_no_suffix p hp
  rcases h with h | h
  · exact hobs.1 (hpl ▸ h)
  · exact hobs.2 (hpl ▸ h)

/-- Every symbol produced by `get_stock_symbol` is uppercase and ends in
".NS" or ".BO". -/
theorem get_stock_symbol_spec (x : Str) :
    (chars ".NS" <:+ get_stock_symbol x ∨ chars ".BO" <:+ get_stock_symbol x) ∧
      pyUpper (get_stock_symbol x) = get_stock_symbol x := by
  cases hlk : List.lookup (pyStrip (pyLower x)) indian_stocks with
  | some v =>
    have hv := indian_stocks_values_upper _ (mem_of_lookup_eq_some hlk)
    have hx : get_stock_symbol x = v := by
      unfold get_stock_symbol
      rw [hlk]
    rw [hx]
    exact ⟨Or.inl hv.2, hv.1⟩
  | none =>
    by_cases hss : chars ".NS" <:+ pyUpper x ∨ chars ".BO" <:+ pyUpper x
    · have hx : get_stock_symbol x = pyUpper x := by
        unfold get_stock_symbol
        rw [hlk, if_pos hss]
      rw [hx]
      exact ⟨hss, pyUpper_pyUpper x⟩
    · have hx : get_stock_symbol x = pyUpper x ++ chars ".NS" := by
        unfold get_stock_symbol
        rw [hlk, if_neg hss]
      rw [hx]
      refine ⟨Or.inl (List.suffix_append _ _), ?_⟩
      show (pyUpper x ++ chars ".NS").map upperChar = pyUpper x ++ chars ".NS"
      rw [List.map_append]
      rw [show (pyUpper x).map upperChar = pyUpper x from pyUpper_pyUpper x]
      rw [show (chars ".NS").map upperChar = chars ".NS" from by decide]

/-- Any uppercase string ending in a market suffix is a fixed point of
`get_stock_symbol`: the lowered/stripped probe misses the company table
and the suffix branch returns the input unchanged. -/
theorem get_stock_symbol_fix (r : Str)
    (hsuf : chars ".NS" <:+ r ∨ chars ".BO" <:+ r)
    (hup : pyUpper r = r) : get_stock_symbol r = r := by
  have hlow : chars ".ns" <:+ pyLower r ∨ chars ".bo" <:+ pyLower r := by
    rcases hsuf with h | h
    · left
      have hm := suffix_map lowerChar _ _ h
      rw [show (chars ".NS").map lowerChar = chars ".ns" from by decide] at hm
      exact hm
    · right
      have hm := suffix_map lowerChar _ _ h
      rw [show (chars ".BO").map lowerChar = chars ".bo" from by decide] at hm
      exact hm
  have hstrip : chars ".ns" <:+ pyStrip (pyLower r) ∨ chars ".bo" <:+ pyStrip (pyLower r) := by
    rcases hlow with h | h
    · exact Or.inl (suffix_pyStrip _ _ (by decide) (by decide) h)
    · exact Or.inr (suffix_pyStrip _ _ (by decide) (by decide) h)
  unfold get_stock_symbol
  rw [lookup_none_of_suffix _ hstrip, hup, if_pos hsuf]

/-- C10: symbol resolution is idempotent — resolving a resolved symbol
returns it unchanged — and every resolved symbol is uppercase and ends in
exactly one of the recognized market suffixes ".NS" and ".BO". -/
theorem C10_idempotent_resolution (x : Str) :
    get_stock_symbol (get_stock_symbol x) = get_stock_symbol x ∧
    pyUpper (get_stock_symbol x) = get_stock_symbol x ∧
    ((chars ".NS" <:+ get_stock_symbol x ∨ chars ".BO" <:+ get_stock_symbol x) ∧
      ¬(chars ".NS" <:+ get_stock_symbol x ∧ chars ".BO" <:+ get_stock_symbol x)) := by
  obtain ⟨hsuf, hup⟩ := get_stock_symbol_spec x
  refine ⟨get_stock_symbol_fix _ hsuf hup, hup, hsuf, ?_⟩
  rintro ⟨h1, h2⟩
  obtain ⟨a, ha⟩ := h1
  obtain ⟨b, hb⟩ := h2
  have hab : a ++ chars ".NS" = b ++ chars ".BO" := ha.trans hb.symm
  have hcontra : chars ".NS" = chars ".BO" := (List.append_inj' hab (by decide)).2
  exact absurd hcontra (by decide)

/-- Witness for C10 at a concrete input that exercises the company-table
branch. -/
theorem C10_idempotent_resolution_witness :
    get_stock_symbol (get_stock_symbol (chars "reliance"))
        = get_stock_symbol (chars "reliance") ∧
    pyUpper (get_stock_symbol (chars "reliance")) = get_stock_symbol (chars "reliance") ∧
    ((chars ".NS" <:+ get_stock_symbol (chars "reliance") ∨
        chars ".BO" <:+ get_stock_symbol (chars "reliance")) ∧
      ¬(chars ".NS" <:+ get_stock_symbol (chars "reliance") ∧
        chars ".BO" <:+ get_stock_symbol (chars "reliance"))) :=
  C10_idempotent_resolution (chars "reliance")

/-- Modelled from the spec: the Presentation Formatter's scaling rule on
the magnitude of the absolute value — ≥ 10,000,000 scales by crore with
label "Cr", ≥ 100,000 by lakh with label "L", ≥ 1,000 by thousand with
label "K", otherwise unscaled.  The formatter is not part of
`src/app.py` (the repository's code under `src/` only ever divides by
1e7 for its crore displays), so the definition follows §4.5 of the
specification. -/
def format_scale (x : ℚ) : ℚ × String :=
  if 10000000 ≤ |x| then (x / 10000000, "Cr")
  else if 100000 ≤ |x| then (x / 100000, "L")
  else if 1000 ≤ |x| then (x / 1000, "K")
  else (x, "")

/-- Modelled from the spec: print a number of hundredths with exactly two
decimal places. -/
def render2Aux (n : ℕ) : String :=
  Nat.repr (n / 100) ++ "." ++ (if n % 100 < 10 then "0" else "") ++ Nat.repr (n % 100)

/-- Modelled from the spec: round a rational to 2 decimal places
(half away from zero on the nonnegative side) and render it. -/
def render2 (q : ℚ) : String :=
  if ⌊q * 100 + 1 / 2⌋ < 0 then "-" ++ render2Aux (-⌊q * 100 + 1 / 2⌋).toNat
  else render2Aux ⌊q * 100 + 1 / 2⌋.toNat

/-- Modelled from the spec: the full Presentation Formatter — scale,
render with 2 decimal places, and append the unit label when one was
chosen. -/
def format_currency (x : ℚ) : String :=
  if (format_scale x).2 = "" then render2 (format_scale x).1
  else render2 (format_scale x).1 ++ " " ++ (format_scale x).2

/-- Evaluation rule for `render2`: a rational whose doubled-shifted value
lies in [n, n+1) for a natural n renders as that n in hundredths. -/
theorem render2_eval (q : ℚ) (n : ℕ) (h1 : (n : ℚ) ≤ q * 100 + 1 / 2)
    (h2 : q * 100 + 1 / 2 < n + 1) : render2 q = render2Aux n := by
  have hf : ⌊q * 100 + 1 / 2⌋ = (n : ℤ) := by
    rw [Int.floor_eq_iff]
    constructor
    · exact_mod_cast h1
    · push_cast
      exact h2
  simp only [render2, hf]
  rw [if_neg (by omega : ¬((n : ℤ) < 0))]
  simp

/-- C4: the Presentation Formatter scales by absolute-value threshold —
crore / lakh / thousand with labels "Cr" / "L" / "K", unscaled below
1,000 — and renders with exactly 2 decimal places: 12,345 formats as
"12.35 K", 123,456,789 as "12.35 Cr", and 999 as "999.00". -/
theorem C4_formatter_scaling :
    (∀ x : ℚ, 10000000 ≤ |x| → format_scale x = (x / 10000000, "Cr")) ∧
    (∀ x : ℚ, |x| < 10000000 → 100000 ≤ |x| → format_scale x = (x / 100000, "L")) ∧
    (∀ x : ℚ, |x| < 100000 → 1000 ≤ |x| → format_scale x = (x / 1000, "K")) ∧
    (∀ x : ℚ, |x| < 1000 → format_scale x = (x, "")) ∧
    format_currency 12345 = "12.35 K" ∧
    format_currency 123456789 = "12.35 Cr" ∧
    format_currency 999 = "999.00" := by
  refine ⟨?_, ?_, ?_, ?_, ?_, ?_, ?_⟩
  · intro x h
    rw [format_scale, if_pos h]
  · intro x h1 h2
    rw [format_scale, if_neg (not_le.mpr h1), if_pos h2]
  · intro x h1 h2
    rw [format_scale, if_neg (not_le.mpr (h1.trans_le (by norm_num))),
      if_neg (not_le.mpr h1), if_pos h2]
  · intro x h
    rw [format_scale, if_neg (not_le.mpr (h.trans_le (by norm_num))),
      if_neg (not_le.mpr (h.trans_le (by norm_num))), if_neg (not_le.mpr h)]
  · have hs : format_scale (12345 : ℚ) = ((12345 : ℚ) / 1000, "K") := by
      rw [format_scale, if_neg (by decide), if_neg (by decide), if_pos (by decide)]
    simp only [format_currency, hs]
    rw [if_neg (by decide), render2_eval _ 1235 (by norm_num) (by norm_num)]
    decide
  · have hs : format_scale (123456789 : ℚ) = ((123456789 : ℚ) / 10000000, "Cr") := by
      rw [format_scale, if_pos (by decide)]
    simp only [format_currency, hs]
    rw [if_neg (by decide), render2_eval _ 1235 (by norm_num) (by norm_num)]
    decide
  · have hs : format_scale (999 : ℚ) = ((999 : ℚ), "") := by
      rw [format_scale, if_neg (by decide), if_neg (by decide), if_neg (by decide)]
    simp only [format_currency, hs]
    rw [if_pos (by decide), render2_eval _ 99900 (by norm_num) (by norm_num)]
    decide

/-- Witness for C4 at concrete magnitudes, one per scaling band. -/
theorem C4_formatter_scaling_witness :
    format_scale 20000000 = ((20000000 : ℚ) / 10000000, "Cr") ∧
    format_scale 200000 = ((200000 : ℚ) / 100000, "L") ∧
    format_scale 2000 = ((2000 : ℚ) / 1000, "K") ∧
    format_scale 999 = ((999 : ℚ), "") :=
  ⟨C4_formatter_scaling.1 20000000 (by decide),
   C4_formatter_scaling.2.1 200000 (by decide) (by decide),
   C4_formatter_scaling.2.2.1 2000 (by decide) (by decide),
   C4_formatter_scaling.2.2.2.1 999 (by decide)⟩
